/-
Verification of the PWM control layer (src/pwm.rs) of pwmd.

The control layer translates logical PWM operations into reads and writes
against a sysfs-like filesystem. We embed the filesystem as an explicit
state (a list of directories plus an association list from paths to file
contents, where a path is a list of segments relative to the sysfs root),
and each Rust method as a pure function from that state to an outcome
paired with the successor state. Rust panics (`panic!` / `expect`) are a
distinguished outcome constructor, and `u32` / `u64` parsing is modelled
with explicit range bounds.
-/
import Mathlib

set_option autoImplicit false

/-- A filesystem path, as a list of segments relative to the sysfs root. -/
abbrev SysPath := List String

/-- Controller ids are non-negative integers (Rust `Controller(pub u32)`). -/
abbrev Controller := Nat

/-- Channel ids are non-negative integers (Rust `Channel(pub u32)`). -/
abbrev Channel := Nat

/-- Rust `Access`: used in `PwmError::Sysfs` to say which access failed.
The underlying `std::io::Error` payload is not observable in the model. -/
inductive Access where
  | read (p : SysPath)
  | write (p : SysPath)
deriving DecidableEq, Repr

/-- Rust `PwmError`: everything that can go wrong. -/
inductive PwmError where
  | ControllerNotFound (c : Controller)
  | ChannelNotFound (c : Controller) (ch : Channel)
  | NotExported (c : Controller)
  | Sysfs (a : Access)
  | DutyCycleNotLessThanPeriod
  | InvalidPolarity
  | IllegalChangeWhileEnabled (property : String)
  | NotBoolean (s : String)
deriving DecidableEq, Repr

/-- The observable outcome of one operation: `Ok(())`, `Err(e)`, or a Rust
panic (from `expect` / `panic!`) carrying the panic message. -/
inductive PwmOutcome where
  | ok
  | err (e : PwmError)
  | panicked (msg : String)
deriving DecidableEq, Repr

/-- Rust `Polarity`. -/
inductive Polarity where
  | Normal
  | Inversed
deriving DecidableEq, Repr

/-- Rust `impl Display for Polarity`. -/
def Polarity.format : Polarity → String
  | .Normal => "normal"
  | .Inversed => "inversed"

/-- Rust `impl FromStr for Polarity`. -/
def Polarity.from_str (s : String) : Except PwmError Polarity :=
  if s = "normal" then .ok .Normal
  else if s = "inversed" then .ok .Inversed
  else .error .InvalidPolarity

/-- Digits of a decimal numeral; `none` unless the character list is
non-empty and all ASCII digits. -/
def parseDigits (cs : List Char) : Option Nat :=
  if cs.isEmpty then none
  else if cs.all Char.isDigit then
    some (cs.foldl (fun acc c => acc * 10 + (c.toNat - 48)) 0)
  else none

/-- Rust `str::parse::<uN>()`: an optional leading `+` sign, then decimal
digits; errors on empty input, other characters, and overflow past
`bound - 1`. -/
def parseUInt (bound : Nat) (s : String) : Option Nat :=
  let cs := match s.data with
    | '+' :: rest => rest
    | cs => cs
  match parseDigits cs with
  | none => none
  | some v => if v < bound then some v else none

/-- Rust `str::parse::<u32>()`. -/
def parseU32 (s : String) : Option Nat := parseUInt (2 ^ 32) s

/-- Rust `str::parse::<u64>()`. -/
def parseU64 (s : String) : Option Nat := parseUInt (2 ^ 64) s

/-- Character-wise lowercasing, modelling Rust `str::to_lowercase` (the
inputs compared against are ASCII, where the two agree). -/
def toLowerStr (s : String) : String := String.mk (s.data.map Char.toLower)

/-- Rust `parse_bool`: sysfs-compatible boolean spellings, matched against
the lowercased input; anything else is `NotBoolean` carrying the original
(unlowercased) text. No whitespace is trimmed. -/
def parse_bool (s : String) : Except PwmError Bool :=
  let l := toLowerStr s
  if l = "1" ∨ l = "y" ∨ l = "yes" ∨ l = "true" then .ok true
  else if l = "0" ∨ l = "n" ∨ l = "no" ∨ l = "false" ∨ l = "" then .ok false
  else .error (.NotBoolean s)

/-- The sysfs tree under the configured root: the set of existing
directories and an association list from file paths to their contents. -/
structure Fs where
  dirs : List SysPath
  files : List (SysPath × String)
deriving DecidableEq, Repr

/-- First content registered for a path, if any (paths are unique in any
state a real filesystem can be in). -/
def lookupFile : List (SysPath × String) → SysPath → Option String
  | [], _ => none
  | e :: rest, p => if e.1 = p then some e.2 else lookupFile rest p

/-- Membership of a path in a path list. -/
def memPath : List SysPath → SysPath → Bool
  | [], _ => false
  | q :: rest, p => if q = p then true else memPath rest p

/-- `fs::read_to_string` succeeds exactly on existing files. -/
def Fs.read (fs : Fs) (p : SysPath) : Option String := lookupFile fs.files p

/-- Rust `Path::exists`: true if a directory or a file exists at `p`. -/
def Fs.pathExists (fs : Fs) (p : SysPath) : Bool :=
  memPath fs.dirs p || (fs.read p).isSome

/-- Replace the content of every entry at path `p`. -/
def writeAll (files : List (SysPath × String)) (p : SysPath) (v : String) :
    List (SysPath × String) :=
  files.map (fun e => if e.1 = p then (p, v) else e)

/-- `fs::write`: truncate-or-create. Fails (with an io error, surfaced by
the callers as `Sysfs(Write, _)`) when a directory sits at the path. -/
def Fs.write (fs : Fs) (p : SysPath) (v : String) : Option Fs :=
  if memPath fs.dirs p then none
  else if (fs.read p).isSome then some ⟨fs.dirs, writeAll fs.files p v⟩
  else some ⟨fs.dirs, fs.files ++ [(p, v)]⟩

/-- `format!("pwmchip{}", controller.0)` under the sysfs root. -/
def chipDir (c : Controller) : SysPath := ["pwmchip" ++ toString c]

/-- The controller's `npwm` file. -/
def npwmPath (c : Controller) : SysPath := chipDir c ++ ["npwm"]

/-- The controller's `export` file. -/
def exportPath (c : Controller) : SysPath := chipDir c ++ ["export"]

/-- The controller's `unexport` file. -/
def unexportPath (c : Controller) : SysPath := chipDir c ++ ["unexport"]

/-- `format!("pwm{}/NAME", channel.0)` inside the controller directory. -/
def channelFile (c : Controller) (ch : Channel) (name : String) : SysPath :=
  chipDir c ++ ["pwm" ++ toString ch, name]

/-- Result of `read_npwm_file`: the parsed channel count, a `PwmError`, or
a panic (the `expect` on the `u32` parse). -/
inductive NpwmRead where
  | okN (n : Nat)
  | errN (e : PwmError)
  | panicN (msg : String)
deriving DecidableEq, Repr

/-- Rust `read_npwm_file`. -/
def read_npwm_file (fs : Fs) (c : Controller) : NpwmRead :=
  let npwm_file := npwmPath c
  match fs.read npwm_file with
  | some s =>
    match parseU32 s with
    | some n => .okN n
    | none => .panicN "npwm expected to contain the number of channels"
  | none => .errN (.Sysfs (.read npwm_file))

/-- Rust `Pwm::export`. -/
def exportController (fs : Fs) (c : Controller) : PwmOutcome × Fs :=
  let path := exportPath c
  if fs.pathExists path then
    match fs.write path "1" with
    | some fs' => (.ok, fs')
    | none => (.err (.Sysfs (.write path)), fs)
  else (.err (.ControllerNotFound c), fs)

/-- Rust `Pwm::unexport`. -/
def unexportController (fs : Fs) (c : Controller) : PwmOutcome × Fs :=
  let path := unexportPath c
  if fs.pathExists path then
    match fs.write path "1" with
    | some fs' => (.ok, fs')
    | none => (.err (.Sysfs (.write path)), fs)
  else (.err (.ControllerNotFound c), fs)

/-- Rust `Pwm::update_enable_file` (shared body of `enable`/`disable`). -/
def update_enable_file (fs : Fs) (c : Controller) (ch : Channel)
    (value : String) : PwmOutcome × Fs :=
  if fs.pathExists (chipDir c) then
    match read_npwm_file fs c with
    | .errN e => (.err e, fs)
    | .panicN m => (.panicked m, fs)
    | .okN n =>
      if ch < n then
        let enable_file := channelFile c ch "enable"
        if fs.pathExists enable_file then
          match fs.write enable_file value with
          | some fs' => (.ok, fs')
          | none => (.err (.Sysfs (.write enable_file)), fs)
        else (.err (.NotExported c), fs)
      else (.err (.ChannelNotFound c ch), fs)
  else (.err (.ControllerNotFound c), fs)

/-- Rust `Pwm::enable`. -/
def enable (fs : Fs) (c : Controller) (ch : Channel) : PwmOutcome × Fs :=
  update_enable_file fs c ch "1"

/-- Rust `Pwm::disable`. -/
def disable (fs : Fs) (c : Controller) (ch : Channel) : PwmOutcome × Fs :=
  update_enable_file fs c ch "0"

/-- Rust `Pwm::set_period` (the argument is the period in nanoseconds, as
handed over by the transport layer via `Duration::from_nanos`). -/
def set_period (fs : Fs) (c : Controller) (ch : Channel) (period : Nat) :
    PwmOutcome × Fs :=
  if fs.pathExists (chipDir c) then
    match read_npwm_file fs c with
    | .errN e => (.err e, fs)
    | .panicN m => (.panicked m, fs)
    | .okN n =>
      if ch < n then
        let period_file := channelFile c ch "period"
        let duty_cycle_file := channelFile c ch "duty_cycle"
        if fs.pathExists period_file && fs.pathExists duty_cycle_file then
          match fs.read duty_cycle_file with
          | none => (.err (.Sysfs (.read duty_cycle_file)), fs)
          | some s =>
            match parseU64 s with
            | none => (.panicked "duty cycle file expected to contain a number", fs)
            | some duty_cycle =>
              if duty_cycle ≥ period then (.err .DutyCycleNotLessThanPeriod, fs)
              else
                match fs.write period_file (toString period) with
                | some fs' => (.ok, fs')
                | none => (.err (.Sysfs (.write period_file)), fs)
        else (.err (.NotExported c), fs)
      else (.err (.ChannelNotFound c ch), fs)
  else (.err (.ControllerNotFound c), fs)

/-- Rust `Pwm::set_duty_cycle`. -/
def set_duty_cycle (fs : Fs) (c : Controller) (ch : Channel)
    (duty_cycle : Nat) : PwmOutcome × Fs :=
  if fs.pathExists (chipDir c) then
    match read_npwm_file fs c with
    | .errN e => (.err e, fs)
    | .panicN m => (.panicked m, fs)
    | .okN n =>
      if ch < n then
        let period_file := channelFile c ch "period"
        let duty_cycle_file := channelFile c ch "duty_cycle"
        if fs.pathExists period_file && fs.pathExists duty_cycle_file then
          match fs.read period_file with
          | none => (.err (.Sysfs (.read period_file)), fs)
          | some s =>
            match parseU64 s with
            | none => (.panicked "period file expected to contain a number", fs)
            | some period =>
              if duty_cycle ≥ period then (.err .DutyCycleNotLessThanPeriod, fs)
              else
                match fs.write duty_cycle_file (toString duty_cycle) with
                | some fs' => (.ok, fs')
                | none => (.err (.Sysfs (.write duty_cycle_file)), fs)
        else (.err (.NotExported c), fs)
      else (.err (.ChannelNotFound c ch), fs)
  else (.err (.ControllerNotFound c), fs)

/-- Rust `Pwm::set_polarity`. -/
def set_polarity (fs : Fs) (c : Controller) (ch : Channel)
    (polarity : Polarity) : PwmOutcome × Fs :=
  if fs.pathExists (chipDir c) then
    match read_npwm_file fs c with
    | .errN e => (.err e, fs)
    | .panicN m => (.panicked m, fs)
    | .okN n =>
      if ch < n then
        let polarity_file := channelFile c ch "polarity"
        let enable_file := channelFile c ch "enable"
        if fs.pathExists polarity_file && fs.pathExists enable_file then
          match fs.read enable_file with
          | none => (.err (.Sysfs (.read enable_file)), fs)
          | some s =>
            match parse_bool s with
            | .error e => (.err e, fs)
            | .ok true => (.err (.IllegalChangeWhileEnabled "polarity"), fs)
            | .ok false =>
              match fs.write polarity_file polarity.format with
              | some fs' => (.ok, fs')
              | none => (.err (.Sysfs (.write polarity_file)), fs)
        else (.err (.NotExported c), fs)
      else (.err (.ChannelNotFound c ch), fs)
  else (.err (.ControllerNotFound c), fs)

/-- The five channel-level operations, as one syntactic category. -/
inductive ChannelOp where
  | enableOp
  | disableOp
  | setPeriodOp (x : Nat)
  | setDutyCycleOp (x : Nat)
  | setPolarityOp (p : Polarity)
deriving DecidableEq, Repr

/-- Dispatch a channel-level operation. -/
def runChannelOp (op : ChannelOp) (fs : Fs) (c : Controller) (ch : Channel) :
    PwmOutcome × Fs :=
  match op with
  | .enableOp => enable fs c ch
  | .disableOp => disable fs c ch
  | .setPeriodOp x => set_period fs c ch x
  | .setDutyCycleOp x => set_duty_cycle fs c ch x
  | .setPolarityOp p => set_polarity fs c ch p

/-- The channel property files whose absence makes the operation report
`NotExported` (exactly the files the Rust method existence-checks). -/
def requiredFiles (op : ChannelOp) (c : Controller) (ch : Channel) :
    List SysPath :=
  match op with
  | .enableOp | .disableOp => [channelFile c ch "enable"]
  | .setPeriodOp _ | .setDutyCycleOp _ =>
    [channelFile c ch "period", channelFile c ch "duty_cycle"]
  | .setPolarityOp _ =>
    [channelFile c ch "polarity", channelFile c ch "enable"]

/-- Every operation of the control layer, controller-level ones included. -/
inductive PwmOp where
  | exportOp
  | unexportOp
  | channelOp (ch : Channel) (op : ChannelOp)
deriving DecidableEq, Repr

/-- Dispatch any operation. -/
def runPwmOp (op : PwmOp) (fs : Fs) (c : Controller) : PwmOutcome × Fs :=
  match op with
  | .exportOp => exportController fs c
  | .unexportOp => unexportController fs c
  | .channelOp ch cop => runChannelOp cop fs c ch

/-- The control-layer handle; it owns only the configured root path. -/
structure Pwm where
  sysfs_root : String
deriving DecidableEq, Repr

/-- Outcome of constructing a `Pwm`: a handle, or a Rust panic. There is
no error constructor, mirroring that the Rust constructors return `Self`,
not a `Result`. -/
inductive InitResult where
  | made (p : Pwm)
  | panicked (msg : String)
deriving DecidableEq, Repr

/-- Rust `Pwm::with_sysfs_root`; `rootExists` abstracts `Path::exists` on
the host filesystem outside the modelled sysfs tree. -/
def with_sysfs_root (rootExists : String → Bool) (sysfs_root : String) :
    InitResult :=
  if rootExists sysfs_root then .made ⟨sysfs_root⟩
  else .panicked ("sysfs root does not exist: " ++ sysfs_root)

/-- Rust `Pwm::new`. -/
def pwmNew (rootExists : String → Bool) : InitResult :=
  with_sysfs_root rootExists "/sys/class/pwm"

/-- An operation as seen with the whole world in scope: it receives the
host-filesystem oracle and the handle, but (like the Rust methods, which
use `self.sysfs_root` for path construction only) consults neither. -/
def runPwmOpWithRoot (_rootExists : String → Bool) (_p : Pwm) (op : PwmOp)
    (fs : Fs) (c : Controller) : PwmOutcome × Fs :=
  runPwmOp op fs c

/-- A populated sysfs tree: controller 0 with one channel, channel 0
exported with period 100ns, duty cycle 70ns, disabled, normal polarity. -/
def fsDemo : Fs :=
  ⟨[["pwmchip0"], ["pwmchip0", "pwm0"]],
   [(npwmPath 0, "1"), (exportPath 0, ""), (unexportPath 0, ""),
    (channelFile 0 0 "period", "100"), (channelFile 0 0 "duty_cycle", "70"),
    (channelFile 0 0 "enable", "0"), (channelFile 0 0 "polarity", "normal")]⟩

/-- The empty tree: no controllers at all. -/
def fsNone : Fs := ⟨[], []⟩

/-- Controller 0 reports one channel, yet property files for the
out-of-range channel 1 exist (reachable with the test-double root). -/
def fsGhostChannel : Fs :=
  ⟨[["pwmchip0"], ["pwmchip0", "pwm1"]],
   [(npwmPath 0, "1"), (channelFile 0 1 "period", "100"),
    (channelFile 0 1 "duty_cycle", "70"),
    (channelFile 0 1 "polarity", "normal"), (channelFile 0 1 "enable", "1")]⟩

/-- Channel 0 exported but its period file holds non-numeric text. -/
def fsBadPeriod : Fs :=
  ⟨[["pwmchip0"], ["pwmchip0", "pwm0"]],
   [(npwmPath 0, "1"), (channelFile 0 0 "period", "abc"),
    (channelFile 0 0 "duty_cycle", "70")]⟩

/-- Channel 0 exported; the period file content has a trailing newline. -/
def fsNewlinePeriod : Fs :=
  ⟨[["pwmchip0"], ["pwmchip0", "pwm0"]],
   [(npwmPath 0, "1"), (channelFile 0 0 "period", "70\n"),
    (channelFile 0 0 "duty_cycle", "10")]⟩

/-- Controller 0 whose npwm file holds non-numeric text. -/
def fsBadNpwm : Fs :=
  ⟨[["pwmchip0"]], [(npwmPath 0, "garbage")]⟩

/-- `fsDemo` after a successful `export(0)`: its export file now reads "1". -/
def fsDemoExported : Fs :=
  ⟨[["pwmchip0"], ["pwmchip0", "pwm0"]],
   [(npwmPath 0, "1"), (exportPath 0, "1"), (unexportPath 0, ""),
    (channelFile 0 0 "period", "100"), (channelFile 0 0 "duty_cycle", "70"),
    (channelFile 0 0 "enable", "0"), (channelFile 0 0 "polarity", "normal")]⟩

/-- Controller 0 reports one channel, but channel 0 has no property files
(not exported). -/
def fsUnexportedChannel : Fs :=
  ⟨[["pwmchip0"]], [(npwmPath 0, "1")]⟩

/-- Channel 0 exported and currently enabled. -/
def fsEnabled : Fs :=
  ⟨[["pwmchip0"], ["pwmchip0", "pwm0"]],
   [(npwmPath 0, "1"), (channelFile 0 0 "polarity", "normal"),
    (channelFile 0 0 "enable", "1")]⟩

/-! ### Association-list and filesystem helper lemmas -/

theorem pathExists_of_read {fs : Fs} {p : SysPath} {v : String}
    (h : fs.read p = some v) : fs.pathExists p = true := by
  simp [Fs.pathExists, h]

theorem lookupFile_writeAll_self {files : List (SysPath × String)}
    {p : SysPath} (v : String) (h : (lookupFile files p).isSome) :
    lookupFile (writeAll files p v) p = some v := by
  induction files with
  | nil => simp [lookupFile] at h
  | cons e rest ih =>
    by_cases hq : e.1 = p
    · simp [writeAll, lookupFile, hq]
    · simp [writeAll, lookupFile, hq] at h ⊢
      exact ih h

theorem lookupFile_writeAll_ne {files : List (SysPath × String)}
    {p q : SysPath} (v : String) (h : q ≠ p) :
    lookupFile (writeAll files p v) q = lookupFile files q := by
  induction files with
  | nil => simp [writeAll, lookupFile]
  | cons e rest ih =>
    by_cases hq : e.1 = p
    · have hpq : p ≠ q := fun hh => h hh.symm
      have heq : ¬ e.1 = q := by rw [hq]; exact hpq
      simp [writeAll, lookupFile, hq, hpq, heq] at ih ⊢
      exact ih
    · by_cases heq : e.1 = q
      · simp [writeAll, lookupFile, hq, heq, h]
      · simp [writeAll, lookupFile, hq, heq] at ih ⊢
        exact ih

theorem isSome_lookupFile_writeAll {files : List (SysPath × String)}
    {p q : SysPath} (v : String) :
    (lookupFile (writeAll files p v) q).isSome = (lookupFile files q).isSome := by
  induction files with
  | nil => simp [writeAll, lookupFile]
  | cons e rest ih =>
    by_cases hq : e.1 = p
    · by_cases hpq : p = q
      · subst hpq; simp [writeAll, lookupFile, hq]
      · have heq : ¬ e.1 = q := by rw [hq]; exact hpq
        simp [writeAll, lookupFile, hq, hpq, heq] at ih ⊢
        exact ih
    · by_cases heq : e.1 = q
      · have hqp : ¬ q = p := by rw [← heq]; exact hq
        simp [writeAll, lookupFile, hq, heq, hqp]
      · simp [writeAll, lookupFile, hq, heq] at ih ⊢
        exact ih

theorem lookupFile_append_none {a b : List (SysPath × String)} {p : SysPath}
    (h : lookupFile a p = none) : lookupFile (a ++ b) p = lookupFile b p := by
  induction a with
  | nil => simp
  | cons e rest ih =>
    by_cases hq : e.1 = p
    · simp [lookupFile, hq] at h
    · simp [lookupFile, hq] at h ⊢
      exact ih h

theorem lookupFile_append_single_ne {files : List (SysPath × String)}
    {p q : SysPath} {v : String} (hq : q ≠ p) :
    lookupFile (files ++ [(p, v)]) q = lookupFile files q := by
  induction files with
  | nil =>
    have hpq : ¬ p = q := fun hh => hq hh.symm
    simp [lookupFile, hpq]
  | cons e rest ih =>
    by_cases he : e.1 = q <;> simp [lookupFile, he, ih]

theorem writeAll_of_none {files : List (SysPath × String)} {p : SysPath}
    (v : String) (h : lookupFile files p = none) : writeAll files p v = files := by
  induction files with
  | nil => rfl
  | cons e rest ih =>
    by_cases hq : e.1 = p
    · simp [lookupFile, hq] at h
    · simp [lookupFile, hq] at h
      simp [writeAll, hq] at ih ⊢
      exact ih h

theorem writeAll_idem (files : List (SysPath × String)) (p : SysPath)
    (v : String) : writeAll (writeAll files p v) p v = writeAll files p v := by
  unfold writeAll
  rw [List.map_map]
  apply List.map_congr_left
  intro e _
  by_cases hq : e.1 = p <;> simp [hq]

theorem Fs.write_dirs {fs fs' : Fs} {p : SysPath} {v : String}
    (h : fs.write p v = some fs') : fs'.dirs = fs.dirs := by
  unfold Fs.write at h
  by_cases hd : memPath fs.dirs p = true
  · simp [hd] at h
  · by_cases hs : (fs.read p).isSome <;>
      simp [hd, hs] at h <;> rw [← h]

theorem Fs.write_read_self {fs fs' : Fs} {p : SysPath} {v : String}
    (h : fs.write p v = some fs') : fs'.read p = some v := by
  unfold Fs.write at h
  by_cases hd : memPath fs.dirs p = true
  · simp [hd] at h
  · by_cases hs : (fs.read p).isSome
    · simp [hd, hs] at h
      rw [← h]
      exact lookupFile_writeAll_self v hs
    · simp [hd, hs] at h
      rw [← h]
      show lookupFile (fs.files ++ [(p, v)]) p = some v
      rw [lookupFile_append_none (by simpa [Fs.read] using (Option.not_isSome_iff_eq_none.mp hs))]
      simp [lookupFile]

theorem Fs.write_read_ne {fs fs' : Fs} {p q : SysPath} {v : String}
    (h : fs.write p v = some fs') (hq : q ≠ p) : fs'.read q = fs.read q := by
  unfold Fs.write at h
  by_cases hd : memPath fs.dirs p = true
  · simp [hd] at h
  · by_cases hs : (fs.read p).isSome
    · simp [hd, hs] at h
      rw [← h]
      exact lookupFile_writeAll_ne v hq
    · simp [hd, hs] at h
      rw [← h]
      show lookupFile (fs.files ++ [(p, v)]) q = fs.read q
      exact lookupFile_append_single_ne hq

theorem Fs.write_pathExists {fs fs' : Fs} {p q : SysPath} {v : String}
    (h : fs.write p v = some fs') (hq : fs.pathExists q = true) :
    fs'.pathExists q = true := by
  simp only [Fs.pathExists, Bool.or_eq_true] at hq ⊢
  rw [Fs.write_dirs h]
  rcases hq with hm | hr
  · exact Or.inl hm
  · by_cases hpq : q = p
    · subst hpq
      right
      simp [Fs.write_read_self h]
    · right
      rw [Fs.write_read_ne h hpq]
      exact hr

theorem Fs.write_write_same {fs fs' : Fs} {p : SysPath} {v : String}
    (h : fs.write p v = some fs') : fs'.write p v = some fs' := by
  unfold Fs.write at h
  by_cases hd : memPath fs.dirs p = true
  · simp [hd] at h
  · have hd2 : memPath fs.dirs p = false := by simpa using hd
    by_cases hs : (fs.read p).isSome
    · simp [hd, hs] at h
      subst h
      have hr : lookupFile (writeAll fs.files p v) p = some v :=
        lookupFile_writeAll_self v (by simpa [Fs.read] using hs)
      unfold Fs.write
      simp [Fs.read, hd2, hr, writeAll_idem]
    · simp [hd, hs] at h
      subst h
      have hn : lookupFile fs.files p = none := by
        simpa [Fs.read] using (Option.not_isSome_iff_eq_none.mp hs)
      have hr : lookupFile (fs.files ++ [(p, v)]) p = some v := by
        rw [lookupFile_append_none hn]
        simp [lookupFile]
      have hw : writeAll (fs.files ++ [(p, v)]) p v = fs.files ++ [(p, v)] := by
        unfold writeAll
        rw [List.map_append]
        rw [show List.map (fun e => if e.1 = p then (p, v) else e) fs.files = fs.files from writeAll_of_none v hn]
        simp
      unfold Fs.write
      simp [Fs.read, hd2, hr, hw]

theorem npwmPath_ne_channelFile (c : Controller) (ch : Channel) (name : String) :
    npwmPath c ≠ channelFile c ch name := by
  intro h
  have hlen := congrArg List.length h
  simp [npwmPath, channelFile, chipDir] at hlen

theorem exportController_ok_again {fs fs' : Fs} {c : Controller}
    (h : exportController fs c = (.ok, fs')) :
    exportController fs' c = (.ok, fs') := by
  unfold exportController at h ⊢
  by_cases h1 : fs.pathExists (exportPath c) = true
  case neg => simp [h1] at h
  case pos =>
  simp only [h1, if_true, if_pos] at h
  cases hw : fs.write (exportPath c) "1" with
  | none => rw [hw] at h; simp at h
  | some fs2 =>
    rw [hw] at h
    simp at h
    subst h
    have e1 : fs2.pathExists (exportPath c) = true := by
      simp [Fs.pathExists, Fs.write_read_self hw]
    simp [e1, Fs.write_write_same hw]

theorem unexportController_ok_again {fs fs' : Fs} {c : Controller}
    (h : unexportController fs c = (.ok, fs')) :
    unexportController fs' c = (.ok, fs') := by
  unfold unexportController at h ⊢
  by_cases h1 : fs.pathExists (unexportPath c) = true
  case neg => simp [h1] at h
  case pos =>
  simp only [h1, if_true, if_pos] at h
  cases hw : fs.write (unexportPath c) "1" with
  | none => rw [hw] at h; simp at h
  | some fs2 =>
    rw [hw] at h
    simp at h
    subst h
    have e1 : fs2.pathExists (unexportPath c) = true := by
      simp [Fs.pathExists, Fs.write_read_self hw]
    simp [e1, Fs.write_write_same hw]

theorem update_enable_file_ok_again {fs fs' : Fs} {c : Controller}
    {ch : Channel} {v : String}
    (h : update_enable_file fs c ch v = (.ok, fs')) :
    update_enable_file fs' c ch v = (.ok, fs') := by
  unfold update_enable_file at h
  by_cases h1 : fs.pathExists (chipDir c) = true
  case neg => simp [h1] at h
  case pos =>
  rw [if_pos h1] at h
  cases hn : read_npwm_file fs c with
  | errN e => rw [hn] at h; simp at h
  | panicN m => rw [hn] at h; simp at h
  | okN n =>
    rw [hn] at h
    simp only [] at h
    by_cases h2 : ch < n
    case neg => simp [h2] at h
    case pos =>
    rw [if_pos h2] at h
    by_cases h3 : fs.pathExists (channelFile c ch "enable") = true
    case neg => simp [h3] at h
    case pos =>
    simp only [h3, if_true, if_pos] at h
    cases hw : fs.write (channelFile c ch "enable") v with
    | none => rw [hw] at h; simp at h
    | some fs2 =>
      rw [hw] at h
      simp at h
      subst h
      have e1 : fs2.pathExists (chipDir c) = true := Fs.write_pathExists hw h1
      have e2 : fs2.read (npwmPath c) = fs.read (npwmPath c) :=
        Fs.write_read_ne hw (npwmPath_ne_channelFile c ch "enable")
      have e3 : read_npwm_file fs2 c = NpwmRead.okN n := by
        simp only [read_npwm_file] at hn ⊢
        rw [e2]
        exact hn
      have e4 : fs2.pathExists (channelFile c ch "enable") = true := by
        simp [Fs.pathExists, Fs.write_read_self hw]
      have e5 : fs2.write (channelFile c ch "enable") v = some fs2 :=
        Fs.write_write_same hw
      simp [update_enable_file, e1, e3, h2, e4, e5]

/-! ### Claim theorems -/

/-- Claim C8: Polarity is a closed two-valued enumeration that round-trips
through its canonical strings: formatting yields "normal"/"inversed",
parsing those exact strings yields the corresponding variant (parse after
format is the identity), and parsing any other string fails with
InvalidPolarity. -/
theorem c8_polarity_roundtrip :
    (Polarity.format .Normal = "normal") ∧
    (Polarity.format .Inversed = "inversed") ∧
    (∀ p : Polarity, Polarity.from_str p.format = .ok p) ∧
    (Polarity.from_str "normal" = .ok .Normal) ∧
    (Polarity.from_str "inversed" = .ok .Inversed) ∧
    (∀ s : String, s ≠ "normal" → s ≠ "inversed" →
      Polarity.from_str s = .error .InvalidPolarity) := by
  refine ⟨rfl, rfl, ?_, rfl, rfl, ?_⟩
  · intro p
    cases p <;> rfl
  · intro s h1 h2
    simp [Polarity.from_str, h1, h2]

/-- Witness for C8 at the concrete non-canonical string "frobnicate". -/
theorem c8_polarity_roundtrip_witness :
    Polarity.from_str "frobnicate" = .error .InvalidPolarity :=
  c8_polarity_roundtrip.2.2.2.2.2 "frobnicate" (by decide) (by decide)

/-- Counterexample to claim C6 as stated: the truthy spelling "1" followed
by trailing whitespace is NOT accepted — parse_bool performs no trimming,
so "1\n" and "1 " fail with NotBoolean instead of parsing as true. -/
theorem c6_counterexample :
    parse_bool "1\n" = .error (.NotBoolean "1\n") ∧
    parse_bool "1 " = .error (.NotBoolean "1 ") ∧
    parse_bool "1\n" ≠ .ok true :=
  ⟨rfl, rfl, fun h => Except.noConfusion
    ((Eq.symm (rfl :
        parse_bool "1\n" = .error (.NotBoolean "1\n"))).trans h)⟩

/-- Claim C6 (amended: no whitespace is ignored): parse_bool returns true
iff the lowercased input is exactly one of "1","y","yes","true", false iff
it is exactly one of "0","n","no","false","", and fails with NotBoolean
carrying the original input unmodified otherwise. -/
theorem c6_amended_parse_bool (s : String) :
    (parse_bool s = .ok true ↔
      (toLowerStr s = "1" ∨ toLowerStr s = "y" ∨ toLowerStr s = "yes" ∨
        toLowerStr s = "true")) ∧
    (parse_bool s = .ok false ↔
      (toLowerStr s = "0" ∨ toLowerStr s = "n" ∨ toLowerStr s = "no" ∨
        toLowerStr s = "false" ∨ toLowerStr s = "")) ∧
    (¬ (toLowerStr s = "1" ∨ toLowerStr s = "y" ∨ toLowerStr s = "yes" ∨
        toLowerStr s = "true") →
     ¬ (toLowerStr s = "0" ∨ toLowerStr s = "n" ∨ toLowerStr s = "no" ∨
        toLowerStr s = "false" ∨ toLowerStr s = "") →
     parse_bool s = .error (.NotBoolean s)) := by
  by_cases h1 : (toLowerStr s = "1" ∨ toLowerStr s = "y" ∨ toLowerStr s = "yes" ∨
      toLowerStr s = "true")
  · have h2 : ¬ (toLowerStr s = "0" ∨ toLowerStr s = "n" ∨ toLowerStr s = "no" ∨
        toLowerStr s = "false" ∨ toLowerStr s = "") := by
      rcases h1 with h | h | h | h <;> rw [h] <;> decide
    have hp : parse_bool s = .ok true := by simp [parse_bool, h1]
    refine ⟨iff_of_true hp h1, iff_of_false ?_ h2, fun hnt _ => absurd h1 hnt⟩
    rw [hp]
    simp
  · by_cases h2 : (toLowerStr s = "0" ∨ toLowerStr s = "n" ∨ toLowerStr s = "no" ∨
        toLowerStr s = "false" ∨ toLowerStr s = "")
    · have hp : parse_bool s = .ok false := by simp [parse_bool, h1, h2]
      refine ⟨iff_of_false ?_ h1, iff_of_true hp h2, fun _ hnf => absurd h2 hnf⟩
      rw [hp]
      simp
    · have hp : parse_bool s = .error (.NotBoolean s) := by
        simp [parse_bool, h1, h2]
      refine ⟨iff_of_false ?_ h1, iff_of_false ?_ h2, fun _ _ => hp⟩ <;>
        rw [hp] <;> simp

/-- Witness for C6 (amended) at the concrete inputs "TRUE" and "No". -/
theorem c6_amended_parse_bool_witness :
    parse_bool "TRUE" = .ok true ∧ parse_bool "No" = .ok false :=
  ⟨(c6_amended_parse_bool "TRUE").1.mpr (by decide),
   (c6_amended_parse_bool "No").2.1.mpr (by decide)⟩

/-- Claim C10: construction is partial — with_sysfs_root panics exactly
when the root does not exist, new() delegates to it with the default root
"/sys/class/pwm", construction never yields an error value (only a handle
or a panic), and no operation ever re-checks the root's existence. -/
theorem c10_construction (re : String → Bool) (root : String) :
    (with_sysfs_root re root =
        InitResult.panicked ("sysfs root does not exist: " ++ root) ↔
      re root = false) ∧
    (pwmNew re = with_sysfs_root re "/sys/class/pwm") ∧
    (with_sysfs_root re root = InitResult.made ⟨root⟩ ∨
      with_sysfs_root re root =
        InitResult.panicked ("sysfs root does not exist: " ++ root)) ∧
    (∀ (re2 : String → Bool) (p : Pwm) (op : PwmOp) (fs : Fs) (c : Controller),
      runPwmOpWithRoot re p op fs c = runPwmOpWithRoot re2 p op fs c) := by
  refine ⟨?_, rfl, ?_, fun _ _ _ _ _ => rfl⟩
  · unfold with_sysfs_root
    by_cases hr : re root = true
    · simp [hr]
    · simp only [Bool.not_eq_true] at hr
      simp [hr]
  · unfold with_sysfs_root
    by_cases hr : re root = true <;> simp [hr]

/-- Witness for C10 at a root that the host filesystem lacks. -/
theorem c10_construction_witness :
    with_sysfs_root (fun _ => false) "/nope" =
      InitResult.panicked ("sysfs root does not exist: " ++ "/nope") :=
  (c10_construction (fun _ => false) "/nope").1.mpr rfl

/-- Claim C4: when the pwmchip directory (and hence its export/unexport
file) does not exist, every operation fails with ControllerNotFound —
never any other kind — and leaves the filesystem unchanged. -/
theorem c4_unknown_controller (fs : Fs) (c : Controller) (op : PwmOp)
    (h1 : fs.pathExists (chipDir c) = false)
    (h2 : fs.pathExists (exportPath c) = false)
    (h3 : fs.pathExists (unexportPath c) = false) :
    runPwmOp op fs c = (.err (.ControllerNotFound c), fs) := by
  cases op with
  | exportOp => simp [runPwmOp, exportController, h2]
  | unexportOp => simp [runPwmOp, unexportController, h3]
  | channelOp ch cop =>
    cases cop <;>
      simp [runPwmOp, runChannelOp, enable, disable, update_enable_file,
        set_period, set_duty_cycle, set_polarity, h1]

/-- Witness for C4: controller 3 does not exist in fsDemo. -/
theorem c4_unknown_controller_witness :
    runPwmOp PwmOp.exportOp fsDemo 3 = (.err (.ControllerNotFound 3), fsDemo) ∧
    runPwmOp (PwmOp.channelOp 0 .enableOp) fsDemo 3 =
      (.err (.ControllerNotFound 3), fsDemo) :=
  ⟨c4_unknown_controller fsDemo 3 PwmOp.exportOp (by decide) (by decide) (by decide),
   c4_unknown_controller fsDemo 3 (PwmOp.channelOp 0 .enableOp) (by decide)
     (by decide) (by decide)⟩

/-- Claim C3: every channel-level operation validates in the fixed order
controller-directory (ControllerNotFound), channel id against the parsed
npwm count (ChannelNotFound), property-file existence (NotExported); in
particular any channel id at or beyond the reported count yields
ChannelNotFound, never NotExported, whatever else exists on disk. -/
theorem c3_validation_order (fs : Fs) (c : Controller) (ch : Channel)
    (op : ChannelOp) :
    (fs.pathExists (chipDir c) = false →
      runChannelOp op fs c ch = (.err (.ControllerNotFound c), fs)) ∧
    (∀ s n, fs.pathExists (chipDir c) = true →
      fs.read (npwmPath c) = some s → parseU32 s = some n → n ≤ ch →
      runChannelOp op fs c ch = (.err (.ChannelNotFound c ch), fs)) ∧
    (∀ s n, fs.pathExists (chipDir c) = true →
      fs.read (npwmPath c) = some s → parseU32 s = some n → ch < n →
      (∃ f ∈ requiredFiles op c ch, fs.pathExists f = false) →
      runChannelOp op fs c ch = (.err (.NotExported c), fs)) := by
  refine ⟨?_, ?_, ?_⟩
  · intro h
    cases op <;>
      simp [runChannelOp, enable, disable, update_enable_file, set_period,
        set_duty_cycle, set_polarity, h]
  · intro s n h1 h2 h3 h4
    have hlt : ¬ ch < n := Nat.not_lt.mpr h4
    cases op <;>
      simp [runChannelOp, enable, disable, update_enable_file, set_period,
        set_duty_cycle, set_polarity, read_npwm_file, h1, h2, h3, hlt]
  · intro s n h1 h2 h3 h4 hex
    obtain ⟨f, hmem, hf⟩ := hex
    cases op with
    | enableOp =>
      simp [requiredFiles] at hmem
      subst hmem
      simp [runChannelOp, enable, update_enable_file, read_npwm_file,
        h1, h2, h3, h4, hf]
    | disableOp =>
      simp [requiredFiles] at hmem
      subst hmem
      simp [runChannelOp, disable, update_enable_file, read_npwm_file,
        h1, h2, h3, h4, hf]
    | setPeriodOp x =>
      simp [requiredFiles] at hmem
      rcases hmem with rfl | rfl <;>
        simp [runChannelOp, set_period, read_npwm_file, h1, h2, h3, h4, hf]
    | setDutyCycleOp x =>
      simp [requiredFiles] at hmem
      rcases hmem with rfl | rfl <;>
        simp [runChannelOp, set_duty_cycle, read_npwm_file, h1, h2, h3, h4, hf]
    | setPolarityOp p =>
      simp [requiredFiles] at hmem
      rcases hmem with rfl | rfl <;>
        simp [runChannelOp, set_polarity, read_npwm_file, h1, h2, h3, h4, hf]

/-- Witness for C3: a missing controller, an out-of-range channel id on a
controller reporting one channel, and an in-range but unexported channel. -/
theorem c3_validation_order_witness :
    runChannelOp .enableOp fsNone 0 0 = (.err (.ControllerNotFound 0), fsNone) ∧
    runChannelOp (.setDutyCycleOp 200) fsGhostChannel 0 1 =
      (.err (.ChannelNotFound 0 1), fsGhostChannel) ∧
    runChannelOp .enableOp fsUnexportedChannel 0 0 =
      (.err (.NotExported 0), fsUnexportedChannel) :=
  ⟨(c3_validation_order fsNone 0 0 .enableOp).1 (by decide),
   (c3_validation_order fsGhostChannel 0 1 (.setDutyCycleOp 200)).2.1 "1" 1
     (by decide) (by decide) (by decide) (by decide),
   (c3_validation_order fsUnexportedChannel 0 0 .enableOp).2.2 "1" 1
     (by decide) (by decide) (by decide) (by decide)
     ⟨channelFile 0 0 "enable", by simp [requiredFiles], by decide⟩⟩

/-- Claim C9: when a numeric file an operation reads exists but does not
parse (npwm as u32; the read-back duty_cycle/period as u64), the operation
panics via expect instead of returning a PwmError. -/
theorem c9_numeric_panics (fs : Fs) (c : Controller) (ch : Channel)
    (op : ChannelOp) (x : Nat) :
    (∀ s, fs.pathExists (chipDir c) = true →
      fs.read (npwmPath c) = some s → parseU32 s = none →
      runChannelOp op fs c ch =
        (.panicked "npwm expected to contain the number of channels", fs)) ∧
    (∀ t n s, fs.pathExists (chipDir c) = true →
      fs.read (npwmPath c) = some t → parseU32 t = some n → ch < n →
      fs.pathExists (channelFile c ch "period") = true →
      fs.pathExists (channelFile c ch "duty_cycle") = true →
      fs.read (channelFile c ch "duty_cycle") = some s → parseU64 s = none →
      set_period fs c ch x =
        (.panicked "duty cycle file expected to contain a number", fs)) ∧
    (∀ t n s, fs.pathExists (chipDir c) = true →
      fs.read (npwmPath c) = some t → parseU32 t = some n → ch < n →
      fs.pathExists (channelFile c ch "period") = true →
      fs.pathExists (channelFile c ch "duty_cycle") = true →
      fs.read (channelFile c ch "period") = some s → parseU64 s = none →
      set_duty_cycle fs c ch x =
        (.panicked "period file expected to contain a number", fs)) := by
  refine ⟨?_, ?_, ?_⟩
  · intro s h1 h2 h3
    cases op <;>
      simp [runChannelOp, enable, disable, update_enable_file, set_period,
        set_duty_cycle, set_polarity, read_npwm_file, h1, h2, h3]
  · intro t n s h1 h2 h3 h4 h5 h6 h7 h8
    simp [set_period, read_npwm_file, h1, h2, h3, h4, h5, h6, h7, h8]
  · intro t n s h1 h2 h3 h4 h5 h6 h7 h8
    simp [set_duty_cycle, read_npwm_file, h1, h2, h3, h4, h5, h6, h7, h8]

/-- Witness for C9: a non-numeric npwm file and a non-numeric period file
both abort the operation. -/
theorem c9_numeric_panics_witness :
    runChannelOp .disableOp fsBadNpwm 0 0 =
      (.panicked "npwm expected to contain the number of channels", fsBadNpwm) ∧
    set_duty_cycle fsBadPeriod 0 0 10 =
      (.panicked "period file expected to contain a number", fsBadPeriod) :=
  ⟨(c9_numeric_panics fsBadNpwm 0 0 .disableOp 0).1 "garbage" (by decide)
     (by decide) (by decide),
   (c9_numeric_panics fsBadPeriod 0 0 .disableOp 10).2.2 "1" 1 "abc"
     (by decide) (by decide) (by decide) (by decide) (by decide) (by decide)
     (by decide) (by decide)⟩

/-- Counterexample to claim C5 as stated: with the period file holding
"abc" (and with "70\n", which would parse after trimming), set_duty_cycle
does not return any error — it panics; the error enum has no NotADuration
variant at all. -/
theorem c5_counterexample :
    set_duty_cycle fsBadPeriod 0 0 50 =
      (.panicked "period file expected to contain a number", fsBadPeriod) ∧
    set_duty_cycle fsNewlinePeriod 0 0 30 =
      (.panicked "period file expected to contain a number", fsNewlinePeriod) := by
  constructor <;> decide

/-- Claim C5 (amended): when the read-back duration-valued content does
not parse as an unsigned 64-bit decimal integer (no whitespace trimming is
performed), the operation panics via expect with a fixed message and
returns no PwmError (no NotADuration variant exists). -/
theorem c5_amended_panic (fs : Fs) (c : Controller) (ch : Channel) (x : Nat) :
    (∀ t n s, fs.pathExists (chipDir c) = true →
      fs.read (npwmPath c) = some t → parseU32 t = some n → ch < n →
      fs.pathExists (channelFile c ch "period") = true →
      fs.pathExists (channelFile c ch "duty_cycle") = true →
      fs.read (channelFile c ch "duty_cycle") = some s → parseU64 s = none →
      set_period fs c ch x =
        (.panicked "duty cycle file expected to contain a number", fs)) ∧
    (∀ t n s, fs.pathExists (chipDir c) = true →
      fs.read (npwmPath c) = some t → parseU32 t = some n → ch < n →
      fs.pathExists (channelFile c ch "period") = true →
      fs.pathExists (channelFile c ch "duty_cycle") = true →
      fs.read (channelFile c ch "period") = some s → parseU64 s = none →
      set_duty_cycle fs c ch x =
        (.panicked "period file expected to contain a number", fs)) := by
  refine ⟨?_, ?_⟩ <;>
    · intro t n s h1 h2 h3 h4 h5 h6 h7 h8
      first
      | simp [set_period, read_npwm_file, h1, h2, h3, h4, h5, h6, h7, h8]
      | simp [set_duty_cycle, read_npwm_file, h1, h2, h3, h4, h5, h6, h7, h8]

/-- Witness for C5 (amended) on the newline-tainted period file. -/
theorem c5_amended_panic_witness :
    set_duty_cycle fsNewlinePeriod 0 0 5 =
      (.panicked "period file expected to contain a number", fsNewlinePeriod) :=
  (c5_amended_panic fsNewlinePeriod 0 0 5).2 "1" 1 "70\n" (by decide)
    (by decide) (by decide) (by decide) (by decide) (by decide) (by decide)
    (by decide)

/-- Counterexample to claim C1 as stated: on fsGhostChannel the claim's
preconditions all hold for channel 1 (controller directory, npwm file and
the channel's period/duty_cycle files exist and are readable) and
200 >= the period file content 100, yet set_duty_cycle fails with
ChannelNotFound — the channel id is not below the reported count, a
precondition the claim omits. -/
theorem c1_counterexample :
    fsGhostChannel.pathExists (chipDir 0) = true ∧
    fsGhostChannel.read (npwmPath 0) = some "1" ∧
    fsGhostChannel.read (channelFile 0 1 "period") = some "100" ∧
    fsGhostChannel.read (channelFile 0 1 "duty_cycle") = some "70" ∧
    set_duty_cycle fsGhostChannel 0 1 200 =
      (.err (.ChannelNotFound 0 1), fsGhostChannel) ∧
    (set_duty_cycle fsGhostChannel 0 1 200).1 ≠
      .err .DutyCycleNotLessThanPeriod := by
  decide

/-- Claim C1 (amended: additionally the npwm content parses as a count n
with ch < n): set_duty_cycle fails with DutyCycleNotLessThanPeriod iff the
period file's content parses as p with x >= p, set_period fails with it
iff the duty_cycle file's content parses as d with x <= d, and on either
such failure the filesystem is unchanged. -/
theorem c1_amended_guard (fs : Fs) (c : Controller) (ch : Channel) (x : Nat)
    (t ps ds : String) (n : Nat)
    (h1 : fs.pathExists (chipDir c) = true)
    (h2 : fs.read (npwmPath c) = some t)
    (h3 : parseU32 t = some n)
    (h4 : ch < n)
    (h5 : fs.read (channelFile c ch "period") = some ps)
    (h6 : fs.read (channelFile c ch "duty_cycle") = some ds) :
    ((set_duty_cycle fs c ch x).1 = .err .DutyCycleNotLessThanPeriod ↔
      (∃ p, parseU64 ps = some p ∧ p ≤ x)) ∧
    ((set_duty_cycle fs c ch x).1 = .err .DutyCycleNotLessThanPeriod →
      (set_duty_cycle fs c ch x).2 = fs) ∧
    ((set_period fs c ch x).1 = .err .DutyCycleNotLessThanPeriod ↔
      (∃ d, parseU64 ds = some d ∧ x ≤ d)) ∧
    ((set_period fs c ch x).1 = .err .DutyCycleNotLessThanPeriod →
      (set_period fs c ch x).2 = fs) := by
  have hp5 : fs.pathExists (channelFile c ch "period") = true :=
    pathExists_of_read h5
  have hp6 : fs.pathExists (channelFile c ch "duty_cycle") = true :=
    pathExists_of_read h6
  refine ⟨?_, ?_, ?_, ?_⟩
  · cases hd : parseU64 ps with
    | none =>
      have hrun : set_duty_cycle fs c ch x =
          (.panicked "period file expected to contain a number", fs) := by
        simp [set_duty_cycle, read_npwm_file, h1, h2, h3, h4, hp5, hp6, h5, hd]
      rw [hrun]
      simp [hd]
    | some p =>
      by_cases hpx : x ≥ p
      · have hrun : set_duty_cycle fs c ch x =
            (.err .DutyCycleNotLessThanPeriod, fs) := by
          simp [set_duty_cycle, read_npwm_file, h1, h2, h3, h4, hp5, hp6,
            h5, hd, hpx]
        rw [hrun]
        simp [hd]
        exact hpx
      · cases hw : fs.write (channelFile c ch "duty_cycle") (toString x) with
        | some fs2 =>
          have hrun : set_duty_cycle fs c ch x = (.ok, fs2) := by
            simp [set_duty_cycle, read_npwm_file, h1, h2, h3, h4, hp5, hp6,
              h5, hd, hpx, hw]
          rw [hrun]
          refine iff_of_false (by simp) ?_
          rintro ⟨pp, hpp, hle⟩
          have hppe : p = pp := Option.some.inj hpp
          subst hppe
          exact hpx hle
        | none =>
          have hrun : set_duty_cycle fs c ch x =
              (.err (.Sysfs (.write (channelFile c ch "duty_cycle"))), fs) := by
            simp [set_duty_cycle, read_npwm_file, h1, h2, h3, h4, hp5, hp6,
              h5, hd, hpx, hw]
          rw [hrun]
          refine iff_of_false (by simp) ?_
          rintro ⟨pp, hpp, hle⟩
          have hppe : p = pp := Option.some.inj hpp
          subst hppe
          exact hpx hle
  · intro hfail
    cases hd : parseU64 ps with
    | none =>
      have hrun : set_duty_cycle fs c ch x =
          (.panicked "period file expected to contain a number", fs) := by
        simp [set_duty_cycle, read_npwm_file, h1, h2, h3, h4, hp5, hp6, h5, hd]
      rw [hrun] at hfail
      simp at hfail
    | some p =>
      by_cases hpx : x ≥ p
      · have hrun : set_duty_cycle fs c ch x =
            (.err .DutyCycleNotLessThanPeriod, fs) := by
          simp [set_duty_cycle, read_npwm_file, h1, h2, h3, h4, hp5, hp6,
            h5, hd, hpx]
        rw [hrun]
      · cases hw : fs.write (channelFile c ch "duty_cycle") (toString x) with
        | some fs2 =>
          have hrun : set_duty_cycle fs c ch x = (.ok, fs2) := by
            simp [set_duty_cycle, read_npwm_file, h1, h2, h3, h4, hp5, hp6,
              h5, hd, hpx, hw]
          rw [hrun] at hfail
          simp at hfail
        | none =>
          have hrun : set_duty_cycle fs c ch x =
              (.err (.Sysfs (.write (channelFile c ch "duty_cycle"))), fs) := by
            simp [set_duty_cycle, read_npwm_file, h1, h2, h3, h4, hp5, hp6,
              h5, hd, hpx, hw]
          rw [hrun]
  · cases hd : parseU64 ds with
    | none =>
      have hrun : set_period fs c ch x =
          (.panicked "duty cycle file expected to contain a number", fs) := by
        simp [set_period, read_npwm_file, h1, h2, h3, h4, hp5, hp6, h6, hd]
      rw [hrun]
      simp [hd]
    | some d =>
      by_cases hdx : d ≥ x
      · have hrun : set_period fs c ch x =
            (.err .DutyCycleNotLessThanPeriod, fs) := by
          simp [set_period, read_npwm_file, h1, h2, h3, h4, hp5, hp6,
            h6, hd, hdx]
        rw [hrun]
        simp [hd]
        exact hdx
      · cases hw : fs.write (channelFile c ch "period") (toString x) with
        | some fs2 =>
          have hrun : set_period fs c ch x = (.ok, fs2) := by
            simp [set_period, read_npwm_file, h1, h2, h3, h4, hp5, hp6,
              h6, hd, hdx, hw]
          rw [hrun]
          refine iff_of_false (by simp) ?_
          rintro ⟨dd, hdd, hle⟩
          have hdde : d = dd := Option.some.inj hdd
          subst hdde
          exact hdx hle
        | none =>
          have hrun : set_period fs c ch x =
              (.err (.Sysfs (.write (channelFile c ch "period"))), fs) := by
            simp [set_period, read_npwm_file, h1, h2, h3, h4, hp5, hp6,
              h6, hd, hdx, hw]
          rw [hrun]
          refine iff_of_false (by simp) ?_
          rintro ⟨dd, hdd, hle⟩
          have hdde : d = dd := Option.some.inj hdd
          subst hdde
          exact hdx hle
  · intro hfail
    cases hd : parseU64 ds with
    | none =>
      have hrun : set_period fs c ch x =
          (.panicked "duty cycle file expected to contain a number", fs) := by
        simp [set_period, read_npwm_file, h1, h2, h3, h4, hp5, hp6, h6, hd]
      rw [hrun] at hfail
      simp at hfail
    | some d =>
      by_cases hdx : d ≥ x
      · have hrun : set_period fs c ch x =
            (.err .DutyCycleNotLessThanPeriod, fs) := by
          simp [set_period, read_npwm_file, h1, h2, h3, h4, hp5, hp6,
            h6, hd, hdx]
        rw [hrun]
      · cases hw : fs.write (channelFile c ch "period") (toString x) with
        | some fs2 =>
          have hrun : set_period fs c ch x = (.ok, fs2) := by
            simp [set_period, read_npwm_file, h1, h2, h3, h4, hp5, hp6,
              h6, hd, hdx, hw]
          rw [hrun] at hfail
          simp at hfail
        | none =>
          have hrun : set_period fs c ch x =
              (.err (.Sysfs (.write (channelFile c ch "period"))), fs) := by
            simp [set_period, read_npwm_file, h1, h2, h3, h4, hp5, hp6,
              h6, hd, hdx, hw]
          rw [hrun]

/-- Witness for C1 (amended) on fsDemo: 200 >= period 100 makes
set_duty_cycle fail with DutyCycleNotLessThanPeriod and leave the tree
unchanged. -/
theorem c1_amended_guard_witness :
    set_duty_cycle fsDemo 0 0 200 = (.err .DutyCycleNotLessThanPeriod, fsDemo) := by
  have h := c1_amended_guard fsDemo 0 0 200 "1" "100" "70" 1 (by decide)
    (by decide) (by decide) (by decide) (by decide) (by decide)
  have h1 : (set_duty_cycle fsDemo 0 0 200).1 = .err .DutyCycleNotLessThanPeriod :=
    h.1.mpr ⟨100, by decide, by decide⟩
  have h2 := h.2.1 h1
  exact Prod.ext h1 h2

/-- Counterexample to claim C2 as stated: on fsGhostChannel the claim's
preconditions all hold for channel 1 (controller directory, npwm file,
polarity and enable files exist; the enable content "1" parses as true),
yet set_polarity fails with ChannelNotFound, not IllegalChangeWhileEnabled
— the channel id is not below the reported count, a precondition the claim
omits. -/
theorem c2_counterexample :
    fsGhostChannel.pathExists (chipDir 0) = true ∧
    fsGhostChannel.read (npwmPath 0) = some "1" ∧
    fsGhostChannel.pathExists (channelFile 0 1 "polarity") = true ∧
    fsGhostChannel.read (channelFile 0 1 "enable") = some "1" ∧
    parse_bool "1" = .ok true ∧
    set_polarity fsGhostChannel 0 1 .Inversed =
      (.err (.ChannelNotFound 0 1), fsGhostChannel) ∧
    (set_polarity fsGhostChannel 0 1 .Inversed).1 ≠
      .err (.IllegalChangeWhileEnabled "polarity") := by
  refine ⟨by decide, by decide, by decide, by decide, rfl, by decide, by decide⟩

/-- Claim C2 (amended: additionally the npwm content parses as a count n
with ch < n): set_polarity fails with IllegalChangeWhileEnabled("polarity")
iff the enable file reads true, and on that failure the filesystem is
unchanged. -/
theorem c2_amended_guard (fs : Fs) (c : Controller) (ch : Channel)
    (pol : Polarity) (t es : String) (n : Nat) (b : Bool)
    (h1 : fs.pathExists (chipDir c) = true)
    (h2 : fs.read (npwmPath c) = some t)
    (h3 : parseU32 t = some n)
    (h4 : ch < n)
    (h5 : fs.pathExists (channelFile c ch "polarity") = true)
    (h6 : fs.read (channelFile c ch "enable") = some es)
    (h7 : parse_bool es = .ok b) :
    ((set_polarity fs c ch pol).1 =
        .err (.IllegalChangeWhileEnabled "polarity") ↔ b = true) ∧
    ((set_polarity fs c ch pol).1 =
        .err (.IllegalChangeWhileEnabled "polarity") →
      (set_polarity fs c ch pol).2 = fs) := by
  have hp6 : fs.pathExists (channelFile c ch "enable") = true :=
    pathExists_of_read h6
  cases b with
  | true =>
    have hrun : set_polarity fs c ch pol =
        (.err (.IllegalChangeWhileEnabled "polarity"), fs) := by
      simp [set_polarity, read_npwm_file, h1, h2, h3, h4, h5, hp6, h6, h7]
    exact ⟨by rw [hrun]; simp, fun _ => by rw [hrun]⟩
  | false =>
    cases hw : fs.write (channelFile c ch "polarity") pol.format with
    | some fs2 =>
      have hrun : set_polarity fs c ch pol = (.ok, fs2) := by
        simp [set_polarity, read_npwm_file, h1, h2, h3, h4, h5, hp6, h6, h7, hw]
      refine ⟨by rw [hrun]; simp, ?_⟩
      intro hfail
      rw [hrun] at hfail
      simp at hfail
    | none =>
      have hrun : set_polarity fs c ch pol =
          (.err (.Sysfs (.write (channelFile c ch "polarity"))), fs) := by
        simp [set_polarity, read_npwm_file, h1, h2, h3, h4, h5, hp6, h6, h7, hw]
      exact ⟨by rw [hrun]; simp, fun _ => by rw [hrun]⟩

/-- Witness for C2 (amended) on fsEnabled: the enable file reads "1", so
changing polarity is refused and the tree is unchanged. -/
theorem c2_amended_guard_witness :
    (set_polarity fsEnabled 0 0 .Inversed).1 =
      .err (.IllegalChangeWhileEnabled "polarity") ∧
    (set_polarity fsEnabled 0 0 .Inversed).2 = fsEnabled := by
  have h := c2_amended_guard fsEnabled 0 0 .Inversed "1" "1" 1 true
    (by decide) (by decide) (by decide) (by decide) (by decide) (by decide) rfl
  exact ⟨h.1.mpr rfl, h.2 (h.1.mpr rfl)⟩

/-- Claim C7: export, unexport, enable and disable are idempotent — after
a successful run, running the same operation again from the resulting
state succeeds again, repeats the same write, and leaves the state
identical. -/
theorem c7_idempotent (fs fs' : Fs) (c : Controller) (ch : Channel) :
    (exportController fs c = (.ok, fs') →
      exportController fs' c = (.ok, fs')) ∧
    (unexportController fs c = (.ok, fs') →
      unexportController fs' c = (.ok, fs')) ∧
    (enable fs c ch = (.ok, fs') → enable fs' c ch = (.ok, fs')) ∧
    (disable fs c ch = (.ok, fs') → disable fs' c ch = (.ok, fs')) :=
  ⟨fun h => exportController_ok_again h,
   fun h => unexportController_ok_again h,
   fun h => update_enable_file_ok_again h,
   fun h => update_enable_file_ok_again h⟩

/-- Witness for C7: re-exporting the already-exported controller 0
succeeds and leaves the tree exactly as it was. -/
theorem c7_idempotent_witness :
    exportController fsDemoExported 0 = (.ok, fsDemoExported) :=
  (c7_idempotent fsDemo fsDemoExported 0 0).1 (by decide)
